import Mathlib

/-!
Verification of `src/utilities/logger.h` (class `Logger`, spec name `EventTimer`).

Shallow embedding notes:
* `std::map<std::string, double>` is embedded as an association list of
  `String × ℚ` kept in ascending key order (`std::map` iterates keys in
  ascending order); `double` values become `ℚ`, since every operation of the
  class on the stored values is exact addition/subtraction.
* `operator[]` of `std::map` default-inserts a zero value on lookup of a
  missing key; this is `Event.access`, which returns the read value together
  with the possibly-grown map.
* Wall-clock time (`get_time`) is threaded as an explicit `now : ℚ` argument.
* The three `std::ofstream` sinks and `std::cout` are embedded as lists of the
  lines written so far (`std::endl` terminates a line).
* `operator<<` on a `double` under default stream settings is rendered by
  `showVal` (decimal expansion, trailing zeros trimmed); under
  `std::fixed << std::setprecision(4)` it is rendered by `formatFixed4`;
  `std::setw` is `padLeft` (right justification, space fill).
-/

/-- Lexicographic comparison on character lists by code point, mirroring the
byte-lexicographic `std::string::operator<` that orders a `std::map` key. -/
def charsLt : List Char → List Char → Bool
  | _, [] => false
  | [], _ :: _ => true
  | c :: cs, d :: ds =>
    if c.toNat < d.toNat then true
    else if d.toNat < c.toNat then false
    else charsLt cs ds

/-- String comparison used for the `std::map` key order. -/
def strLt (a b : String) : Bool :=
  charsLt a.data b.data

/-- Map from event name to value, mirroring `typedef std::map<std::string, double> Event`,
represented as an association list in ascending key order. -/
abbrev Event := List (String × ℚ)

/-- Value stored for key `k`, `none` when the key is absent (first match wins). -/
def Event.find? : Event → String → Option ℚ
  | [], _ => none
  | p :: ps, k => if p.1 = k then some p.2 else Event.find? ps k

/-- Set the value of key `k` to `v`, inserting at the ascending-key position
when `k` is absent (the write path of `std::map::operator[]`). -/
def Event.insert : Event → String → ℚ → Event
  | [], k, v => [(k, v)]
  | p :: ps, k, v =>
    if strLt k p.1 then (k, v) :: p :: ps
    else if k = p.1 then (k, v) :: ps
    else p :: Event.insert ps k v

/-- Read `m[k]` with the semantics of `std::map::operator[]`: a missing key is
default-inserted with value `0`. Returns the value read and the resulting map. -/
def Event.access (m : Event) (k : String) : ℚ × Event :=
  match m.find? k with
  | some v => (v, m)
  | none => (0, m.insert k 0)

/-- The compound statement `m[k] += v`. -/
def Event.addTo (m : Event) (k : String) (v : ℚ) : Event :=
  let a := m.access k
  a.2.insert k (a.1 + v)

/-- The compound statement `m[k] -= v`. -/
def Event.subFrom (m : Event) (k : String) (v : ℚ) : Event :=
  let a := m.access k
  a.2.insert k (a.1 - v)

/-- Source `std::map::erase(k)`: removes the entry of key `k` when present. -/
def Event.erase : Event → String → Event
  | [], _ => []
  | p :: ps, k => if p.1 = k then Event.erase ps k else p :: Event.erase ps k

/-- The key list of the map, in iteration order. -/
def Event.keys (m : Event) : List String :=
  m.map Prod.fst

/-- Adjacent pairs of the list are in strictly ascending `strLt` order. -/
def strChain : List String → Bool
  | [] => true
  | [_] => true
  | a :: b :: rest => strLt a b && strChain (b :: rest)

/-- Keys are in strictly ascending order (the `std::map` iteration invariant). -/
def Event.keysSorted (m : Event) : Prop :=
  strChain m.keys = true

instance (m : Event) : Decidable m.keysSorted :=
  inferInstanceAs (Decidable (strChain m.keys = true))

/-- Left-pad a string with spaces to width `w`: `std::setw(w)` with the default
right justification and space fill (no effect when the string is longer). -/
def padLeft (w : Nat) (s : String) : String :=
  String.pushn "" ' ' (w - s.length) ++ s

/-- Left-pad the decimal digits of `n` with zeros to width `w`. -/
def padZeros (w : Nat) (n : Nat) : String :=
  String.pushn "" '0' (w - (toString n).length) ++ toString n

/-- The magnitude `|q|` scaled by `scale` and rounded to the nearest integer
(half away from zero): the exact value of
`⌊|q| * scale + 1/2⌋ = (2 * |num q| * scale + den q) / (2 * den q)`. -/
def ratScaled (q : ℚ) (scale : Nat) : Nat :=
  (2 * q.num.natAbs * scale + q.den) / (2 * q.den)

/-- Rendering of a `double` under `std::fixed << std::setprecision(4)`:
sign, integer part, and exactly four fractional digits. -/
def formatFixed4 (q : ℚ) : String :=
  let sign := if q.num < 0 then "-" else ""
  let n := ratScaled q 10000
  sign ++ toString (n / 10000) ++ "." ++ padZeros 4 (n % 10000)

/-- Drop trailing `'0'` characters. -/
def trimRightZeros (s : String) : String :=
  String.mk ((s.data.reverse.dropWhile (fun c => c = '0')).reverse)

/-- Rendering of a `double` by `operator<<` under default stream settings,
for the decimal-exact magnitudes this class handles: integer values print with
no decimal point, fractional values print with trailing zeros trimmed. -/
def showVal (q : ℚ) : String :=
  let sign := if q.num < 0 then "-" else ""
  let n := ratScaled q 1000000
  if n % 1000000 = 0 then sign ++ toString (n / 1000000)
  else sign ++ toString (n / 1000000) ++ "." ++ trimRightZeros (padZeros 6 (n % 1000000))

/-- State of a `Logger` object: the four maps (source names `tic`, `timer`,
`timeStep`, `memory`; spec names `startTimes`, `totalElapsed`, `stepElapsed`,
`memoryUsage`), the lines written so far to the three file sinks
(`time`, `profiling`, `profiling_legend`) and to the console, and the public
flag `printNow`. -/
structure Logger where
  tic : Event
  timer : Event
  timeStep : Event
  memory : Event
  fileOut : List String
  stepFileOut : List String
  legendFileOut : List String
  consoleOut : List String
  printNow : Bool
deriving DecidableEq

/-- Constructor `Logger(std::string folder)`: opens the three (empty) sinks and sets
`printNow = false`. The maps start empty. -/
def Logger.init : Logger :=
  { tic := [], timer := [], timeStep := [], memory := [],
    fileOut := [], stepFileOut := [], legendFileOut := [], consoleOut := [],
    printNow := false }

/-- Method `startTimer(event)` at wall-clock time `now`: `tic[event] = get_time()`. -/
def Logger.startTimer (s : Logger) (now : ℚ) (event : String) : Logger :=
  { s with tic := s.tic.insert event now }

/-- Method `stopTimer(event, print)` at wall-clock time `now`:
`toc = get_time(); timeStep[event] += toc - tic[event];
timer[event] += toc - tic[event];
if (print) std::cout << event << " : " << timer[event] << std::endl;`.
Each `tic[event]` and `timer[event]` read goes through `operator[]` and so may
default-insert the key. -/
def Logger.stopTimer (s : Logger) (now : ℚ) (event : String) (print : Bool) : Logger :=
  let toc := now
  let t1 := s.tic.access event
  let timeStep1 := s.timeStep.addTo event (toc - t1.1)
  let t2 := t1.2.access event
  let timer1 := s.timer.addTo event (toc - t2.1)
  let echoed := (timer1.access event).1
  { s with tic := t2.2, timeStep := timeStep1, timer := timer1,
           consoleOut := if print then
               s.consoleOut ++ [event ++ " : " ++ showVal echoed]
             else s.consoleOut }

/-- Method `eraseTimer(event)`: `timer.erase(event)`. -/
def Logger.eraseTimer (s : Logger) (event : String) : Logger :=
  { s with timer := s.timer.erase event }

/-- Method `resetTimer()`: sets every value of `timer` to `0`, keys retained. -/
def Logger.resetTimer (s : Logger) : Logger :=
  { s with timer := s.timer.map (fun p => (p.1, (0 : ℚ))) }

/-- Method `resetTimeStep()`: sets every value of `timeStep` to `0`, keys retained. -/
def Logger.resetTimeStep (s : Logger) : Logger :=
  { s with timeStep := s.timeStep.map (fun p => (p.1, (0 : ℚ))) }

/-- Method `allocMemory(event, bytes)`: `memory[event] += bytes`. -/
def Logger.allocMemory (s : Logger) (event : String) (bytes : ℚ) : Logger :=
  { s with memory := s.memory.addTo event bytes }

/-- Method `freeMemory(event, bytes)`: `memory[event] -= bytes`. -/
def Logger.freeMemory (s : Logger) (event : String) (bytes : ℚ) : Logger :=
  { s with memory := s.memory.subFrom event bytes }

/-- Method `printTime(event)`: `std::cout << event << " : " << timer[event] << std::endl;`.
The `timer[event]` read goes through `operator[]` and may default-insert. -/
def Logger.printTime (s : Logger) (event : String) : Logger :=
  let a := s.timer.access event
  { s with timer := a.2,
           consoleOut := s.consoleOut ++ [event ++ " : " ++ showVal a.1] }

/-- Method `printMemory(event)`: `std::cout << event << " : " << memory[event] << std::endl;`.
The `memory[event]` read goes through `operator[]` and may default-insert. -/
def Logger.printMemory (s : Logger) (event : String) : Logger :=
  let a := s.memory.access event
  { s with memory := a.2,
           consoleOut := s.consoleOut ++ [event ++ " : " ++ showVal a.1] }

/-- The dash separator line printed by `printAllTime`. -/
def sepLine : String := "-------------------------------------"

/-- Method `printAllTime()`: blank line, then one row per `timer` entry
(`setw(24)` key, `setw(13)` fixed 4-decimal value) while accumulating
`totalTime`, then the separator line and the `TOTAL` row. -/
def Logger.printAllTime (s : Logger) : Logger :=
  let rows := s.timer.map (fun p => padLeft 24 p.1 ++ padLeft 13 (formatFixed4 p.2))
  let totalTime := s.timer.foldl (fun acc p => acc + p.2) 0
  { s with consoleOut := s.consoleOut ++ [""] ++ rows ++
      [sepLine, padLeft 24 "TOTAL" ++ padLeft 13 (formatFixed4 totalTime)] }

/-- Method `writeLegend()`: one line per `timer` key, appended to the legend sink. -/
def Logger.writeLegend (s : Logger) : Logger :=
  { s with legendFileOut := s.legendFileOut ++ s.timer.map Prod.fst }

/-- Method `writeTime()`: one line `"<event> <value>"` per `timer` entry, appended to
the aggregate-time sink. -/
def Logger.writeTime (s : Logger) : Logger :=
  { s with fileOut := s.fileOut ++ s.timer.map (fun p => p.1 ++ " " ++ showVal p.2) }

/-- Method `writeTimeStep(n)`: a single line `n` then `"\t"` then each `timeStep`
value followed by `"\t"`, appended to the per-step sink. -/
def Logger.writeTimeStep (s : Logger) (n : Int) : Logger :=
  { s with stepFileOut := s.stepFileOut ++
      [toString n ++ "\t" ++ String.join (s.timeStep.map (fun p => showVal p.2 ++ "\t"))] }

/-- Destructor `~Logger()`: calls `writeLegend()` and closes the sinks (closing writes
nothing further). -/
def Logger.destruct (s : Logger) : Logger :=
  s.writeLegend

/-- One call to a public method of the class, with its wall-clock instant where
the method reads the clock. -/
inductive Op where
  | start (now : ℚ) (event : String)
  | stop (now : ℚ) (event : String) (print : Bool)
  | erase (event : String)
  | reset
  | resetStep
  | alloc (event : String) (bytes : ℚ)
  | free (event : String) (bytes : ℚ)
  | pTime (event : String)
  | pMemory (event : String)
  | pAll
  | wLegend
  | wTime
  | wTimeStep (n : Int)

/-- Dispatch one method call on the state. -/
def Logger.runOp (s : Logger) : Op → Logger
  | Op.start now event => s.startTimer now event
  | Op.stop now event print => s.stopTimer now event print
  | Op.erase event => s.eraseTimer event
  | Op.reset => s.resetTimer
  | Op.resetStep => s.resetTimeStep
  | Op.alloc event bytes => s.allocMemory event bytes
  | Op.free event bytes => s.freeMemory event bytes
  | Op.pTime event => s.printTime event
  | Op.pMemory event => s.printMemory event
  | Op.pAll => s.printAllTime
  | Op.wLegend => s.writeLegend
  | Op.wTime => s.writeTime
  | Op.wTimeStep n => s.writeTimeStep n

/-- Run a sequence of method calls. -/
def Logger.run (s : Logger) (ops : List Op) : Logger :=
  ops.foldl Logger.runOp s

/-- Everything observable about a `Logger` state except the `printNow` flag:
the four maps, the three file sinks and the console. -/
def Logger.observe (s : Logger) :
    Event × Event × Event × Event × List String × List String × List String × List String :=
  (s.tic, s.timer, s.timeStep, s.memory, s.fileOut, s.stepFileOut, s.legendFileOut, s.consoleOut)

/-! ### Lemmas about the map embedding -/

theorem Event.find?_insert_self (m : Event) (k : String) (v : ℚ) :
    (m.insert k v).find? k = some v := by
  induction m with
  | nil => simp [Event.insert, Event.find?]
  | cons p ps ih =>
    by_cases h1 : strLt k p.1
    · simp [Event.insert, h1, Event.find?]
    · by_cases h2 : k = p.1
      · subst h2
        simp [Event.insert, h1, Event.find?]
      · simp [Event.insert, h1, h2, Event.find?, Ne.symm h2, ih]

theorem Event.find?_insert_ne (m : Event) (k : String) (v : ℚ) (k' : String)
    (hne : k' ≠ k) : (m.insert k v).find? k' = m.find? k' := by
  have hkk : k ≠ k' := Ne.symm hne
  induction m with
  | nil => simp [Event.insert, Event.find?, hkk]
  | cons p ps ih =>
    by_cases h1 : strLt k p.1
    · simp [Event.insert, h1, Event.find?, hkk]
    · by_cases h2 : k = p.1
      · subst h2
        simp [Event.insert, h1, Event.find?, hkk]
      · simp [Event.insert, h1, h2, Event.find?, ih]

theorem Event.access_fst (m : Event) (k : String) :
    (m.access k).1 = (m.find? k).getD 0 := by
  unfold Event.access
  cases h : m.find? k <;> simp

theorem Event.find?_access_self (m : Event) (k : String) :
    (m.access k).2.find? k = some ((m.access k).1) := by
  unfold Event.access
  cases h : m.find? k with
  | none => simp [Event.find?_insert_self]
  | some v => simp [h]

theorem Event.find?_access_ne (m : Event) (k k' : String) (hne : k' ≠ k) :
    (m.access k).2.find? k' = m.find? k' := by
  unfold Event.access
  cases h : m.find? k with
  | none => simp [Event.find?_insert_ne _ _ _ _ hne]
  | some v => simp

theorem Event.access_access (m : Event) (k : String) :
    (m.access k).2.access k = ((m.access k).1, (m.access k).2) := by
  have h := Event.find?_access_self m k
  unfold Event.access
  rw [Event.access] at h
  simp [h]

theorem Event.addTo_find?_self (m : Event) (k : String) (v : ℚ) :
    (m.addTo k v).find? k = some ((m.find? k).getD 0 + v) := by
  unfold Event.addTo
  rw [Event.find?_insert_self, Event.access_fst]

theorem Event.addTo_find?_ne (m : Event) (k : String) (v : ℚ) (k' : String)
    (hne : k' ≠ k) : (m.addTo k v).find? k' = m.find? k' := by
  unfold Event.addTo
  rw [Event.find?_insert_ne _ _ _ _ hne, Event.find?_access_ne _ _ _ hne]

theorem Event.subFrom_find?_self (m : Event) (k : String) (v : ℚ) :
    (m.subFrom k v).find? k = some ((m.find? k).getD 0 - v) := by
  unfold Event.subFrom
  rw [Event.find?_insert_self, Event.access_fst]

theorem Event.subFrom_find?_ne (m : Event) (k : String) (v : ℚ) (k' : String)
    (hne : k' ≠ k) : (m.subFrom k v).find? k' = m.find? k' := by
  unfold Event.subFrom
  rw [Event.find?_insert_ne _ _ _ _ hne, Event.find?_access_ne _ _ _ hne]

theorem Event.find?_erase_self (m : Event) (k : String) :
    (m.erase k).find? k = none := by
  induction m with
  | nil => rfl
  | cons p ps ih =>
    by_cases h : p.1 = k
    · simpa [Event.erase, h] using ih
    · simpa [Event.erase, Event.find?, h] using ih

theorem Event.find?_erase_ne (m : Event) (k k' : String) (hne : k' ≠ k) :
    (m.erase k).find? k' = m.find? k' := by
  induction m with
  | nil => rfl
  | cons p ps ih =>
    by_cases h : p.1 = k
    · have h2 : p.1 ≠ k' := by
        rw [h]
        exact Ne.symm hne
      simp [Event.erase, Event.find?, h, h2, Ne.symm hne, ih]
    · simp [Event.erase, Event.find?, h, ih]

theorem Event.not_mem_keys_erase (m : Event) (k : String) :
    k ∉ (m.erase k).keys := by
  induction m with
  | nil => simp [Event.erase, Event.keys]
  | cons p ps ih =>
    by_cases h : p.1 = k
    · simpa [Event.erase, h] using ih
    · simpa [Event.erase, Event.keys, h, Ne.symm h] using ih

theorem Event.find?_eq_none_iff (m : Event) (k : String) :
    m.find? k = none ↔ k ∉ m.keys := by
  induction m with
  | nil => simp [Event.find?, Event.keys]
  | cons p ps ih =>
    by_cases h : p.1 = k
    · simp [Event.find?, Event.keys, h]
    · simp [Event.find?, Event.keys, h, Ne.symm h, ih]

theorem Event.length_insert_of_absent (m : Event) (k : String) (v : ℚ)
    (h : m.find? k = none) : (m.insert k v).length = m.length + 1 := by
  induction m with
  | nil => simp [Event.insert]
  | cons p ps ih =>
    simp only [Event.find?] at h
    by_cases h0 : p.1 = k
    · rw [if_pos h0] at h
      exact absurd h (by simp)
    · rw [if_neg h0] at h
      by_cases h1 : strLt k p.1
      · simp [Event.insert, h1]
      · have h2 : k ≠ p.1 := Ne.symm h0
        simp [Event.insert, h1, h2, ih h]

theorem Event.keys_map_zero (m : Event) :
    Event.keys (m.map fun p => (p.1, (0 : ℚ))) = m.keys := by
  unfold Event.keys
  rw [List.map_map]
  rfl

theorem Event.foldl_add_snd (m : Event) (a : ℚ) :
    m.foldl (fun acc p => acc + p.2) a = a + (m.map Prod.snd).sum := by
  induction m generalizing a with
  | nil => simp
  | cons p ps ih =>
    simp [List.foldl_cons, ih, add_assoc]

/-! ### Lemmas about the Logger operations -/

theorem Logger.stopTimer_tic (s : Logger) (now : ℚ) (event : String) (print : Bool) :
    (s.stopTimer now event print).tic.find? event = some ((s.tic.find? event).getD 0) := by
  simp [Logger.stopTimer, Event.access_access, Event.find?_access_self, Event.access_fst]

theorem Logger.stopTimer_timer (s : Logger) (now : ℚ) (event : String) (print : Bool) :
    (s.stopTimer now event print).timer.find? event
      = some ((s.timer.find? event).getD 0 + (now - (s.tic.find? event).getD 0)) := by
  simp [Logger.stopTimer, Event.access_access, Event.addTo_find?_self, Event.access_fst]

theorem Logger.stopTimer_timeStep (s : Logger) (now : ℚ) (event : String) (print : Bool) :
    (s.stopTimer now event print).timeStep.find? event
      = some ((s.timeStep.find? event).getD 0 + (now - (s.tic.find? event).getD 0)) := by
  simp [Logger.stopTimer, Event.addTo_find?_self, Event.access_fst]

theorem Logger.stopTimer_console (s : Logger) (now : ℚ) (event : String) (print : Bool) :
    (s.stopTimer now event print).consoleOut
      = if print then
          s.consoleOut ++ [event ++ " : "
            ++ showVal ((s.timer.find? event).getD 0 + (now - (s.tic.find? event).getD 0))]
        else s.consoleOut := by
  simp [Logger.stopTimer, Event.access_access, Event.access_fst, Event.addTo_find?_self]

theorem Event.sum_snd_zero (m : Event) :
    (List.map (Prod.snd ∘ fun p : String × ℚ => (p.1, (0 : ℚ))) m).sum = 0 := by
  induction m with
  | nil => rfl
  | cons p ps ih => simpa using ih

theorem Logger.printAllTime_consoleOut (s : Logger) :
    (s.printAllTime).consoleOut
      = s.consoleOut ++ [""]
        ++ s.timer.map (fun p => padLeft 24 p.1 ++ padLeft 13 (formatFixed4 p.2))
        ++ [sepLine, padLeft 24 "TOTAL"
              ++ padLeft 13 (formatFixed4 ((s.timer.map Prod.snd).sum))] := by
  simp [Logger.printAllTime, Event.foldl_add_snd]

theorem Logger.runOp_printNow (s : Logger) (b : Bool) (op : Op) :
    Logger.runOp { s with printNow := b } op = { Logger.runOp s op with printNow := b } := by
  cases op <;> rfl

theorem Logger.run_printNow (s : Logger) (b : Bool) (ops : List Op) :
    Logger.run { s with printNow := b } ops = { Logger.run s ops with printNow := b } := by
  induction ops generalizing s with
  | nil => rfl
  | cons op rest ih =>
    show Logger.run (Logger.runOp { s with printNow := b } op) rest = _
    rw [Logger.runOp_printNow]
    exact ih (Logger.runOp s op)

/-! ### Claim theorems -/

/-- Claim C1: for an event never passed to `startTimer` (no `tic` entry),
`stopTimer` adds `now - 0` to `timer[event]` — the missing start timestamp is
default-inserted as zero, so the recorded delta is the wall-clock value itself. -/
theorem stopTimer_never_started (s : Logger) (now : ℚ) (event : String) (print : Bool)
    (h : s.tic.find? event = none) :
    (s.stopTimer now event print).timer.find? event
      = some ((s.timer.find? event).getD 0 + (now - 0)) ∧
    (s.stopTimer now event print).tic.find? event = some 0 := by
  constructor
  · rw [Logger.stopTimer_timer, h]
    rfl
  · rw [Logger.stopTimer_tic, h]
    rfl

/-- Witness for C1 at the freshly constructed state and `now = 42`. -/
theorem stopTimer_never_started_witness :
    Logger.init.tic.find? "advection" = none ∧
    (Logger.init.stopTimer 42 "advection" false).timer.find? "advection"
      = some ((Logger.init.timer.find? "advection").getD 0 + (42 - 0)) ∧
    (Logger.init.stopTimer 42 "advection" false).tic.find? "advection" = some 0 :=
  ⟨rfl, (stopTimer_never_started Logger.init 42 "advection" false rfl).1,
    (stopTimer_never_started Logger.init 42 "advection" false rfl).2⟩

/-- Claim C2: `stopTimer(event, echo)` adds the same delta
`now - startTimes[event]` to both `stepElapsed[event]` and
`totalElapsed[event]`, and when `echo` is true writes the console line
`event : totalElapsed[event]`. -/
theorem stopTimer_same_delta (s : Logger) (now : ℚ) (event : String) (echo : Bool) :
    (s.stopTimer now event echo).timeStep.find? event
      = some ((s.timeStep.find? event).getD 0 + (now - (s.tic.find? event).getD 0)) ∧
    (s.stopTimer now event echo).timer.find? event
      = some ((s.timer.find? event).getD 0 + (now - (s.tic.find? event).getD 0)) ∧
    (s.stopTimer now event echo).consoleOut
      = (if echo then
          s.consoleOut ++ [event ++ " : "
            ++ showVal ((s.timer.find? event).getD 0 + (now - (s.tic.find? event).getD 0))]
        else s.consoleOut) :=
  ⟨Logger.stopTimer_timeStep s now event echo,
    Logger.stopTimer_timer s now event echo,
    Logger.stopTimer_console s now event echo⟩

/-- Claim C3: `writeTimeStep(n)` appends exactly one line to the per-step sink,
`n` then a tab then each `stepElapsed` value in the map's iteration order, each
value followed by a tab, and leaves `stepElapsed` unchanged; under the
`std::map` sortedness invariant, that iteration order is ascending key order. -/
theorem writeTimeStep_line (s : Logger) (n : Int) (h : s.timeStep.keysSorted) :
    (s.writeTimeStep n).stepFileOut
      = s.stepFileOut ++ [toString n ++ "\t"
          ++ String.join (s.timeStep.map (fun p => showVal p.2 ++ "\t"))] ∧
    (s.writeTimeStep n).timeStep = s.timeStep ∧
    (s.writeTimeStep n).timeStep.keysSorted := by
  refine ⟨rfl, rfl, ?_⟩
  exact h

/-- The rational `5/4 = 1.25` in reduced explicit form (kernel-evaluable). -/
def ratFiveQuarters : ℚ := Rat.mk' 5 4 (by decide) (by decide)

/-- The rational `5/2 = 2.5` in reduced explicit form (kernel-evaluable). -/
def ratFiveHalves : ℚ := Rat.mk' 5 2 (by decide) (by decide)

/-- The spec's example per-step map `{A : 1.25, B : 2.5}`. -/
def stepMap : Event := [("A", ratFiveQuarters), ("B", ratFiveHalves)]

/-- A state whose `timeStep` is the spec's example map. -/
def stepState : Logger := { Logger.init with timeStep := stepMap }

/-- Witness for C3 at the spec's example: `stepElapsed = {A : 1.25, B : 2.5}`
and `n = 5` produce the single appended line `"5\t1.25\t2.5\t"`. -/
theorem writeTimeStep_line_witness :
    Event.keysSorted stepMap ∧
    (stepState.writeTimeStep 5).stepFileOut
      = [] ++ [toString (5 : Int) ++ "\t"
          ++ String.join (stepMap.map (fun p => showVal p.2 ++ "\t"))] ∧
    (stepState.writeTimeStep 5).stepFileOut = ["5\t1.25\t2.5\t"] :=
  ⟨by decide, (writeTimeStep_line stepState 5 (by decide)).1, by decide⟩

/-- Claim C4: destruction, with no explicit `writeLegend()` call, writes every
key of `totalElapsed` at destruction time to the legend sink, one per line. -/
theorem destruct_writes_legend (s : Logger) :
    (s.destruct).legendFileOut = s.legendFileOut ++ s.timer.keys ∧
    ∀ k, k ∈ s.timer.keys → k ∈ (s.destruct).legendFileOut := by
  constructor
  · rfl
  · intro k hk
    exact List.mem_append.mpr (Or.inr hk)

/-- A state tracking two events with no prior legend output. -/
def legendState : Logger := { Logger.init with timer := [("A", (0 : ℚ)), ("B", (0 : ℚ))] }

/-- Witness for C4 at a state with two tracked events and no prior legend. -/
theorem destruct_writes_legend_witness :
    (legendState.destruct).legendFileOut
      = [] ++ Event.keys [("A", (0 : ℚ)), ("B", (0 : ℚ))] ∧
    "B" ∈ (legendState.destruct).legendFileOut :=
  ⟨(destruct_writes_legend legendState).1,
    (destruct_writes_legend legendState).2 "B" (by simp [legendState, Event.keys])⟩

/-- Claim C5: `eraseTimer(e)` removes `e` from `totalElapsed` only, leaving
`startTimes`, `stepElapsed` and `memoryUsage` unchanged; `e` no longer appears
in `writeTime()`/`printAllTime()` output, while `memoryUsage[e]` and
`stepElapsed[e]` remain queryable. -/
theorem eraseTimer_frame (s : Logger) (e : String) :
    (s.eraseTimer e).timer.find? e = none ∧
    e ∉ (s.eraseTimer e).timer.keys ∧
    (∀ k, k ≠ e → (s.eraseTimer e).timer.find? k = s.timer.find? k) ∧
    (s.eraseTimer e).tic = s.tic ∧
    (s.eraseTimer e).timeStep = s.timeStep ∧
    (s.eraseTimer e).memory = s.memory ∧
    (s.eraseTimer e).memory.find? e = s.memory.find? e ∧
    (s.eraseTimer e).timeStep.find? e = s.timeStep.find? e ∧
    ((s.eraseTimer e).writeTime).fileOut
      = s.fileOut ++ (s.timer.erase e).map (fun p => p.1 ++ " " ++ showVal p.2) ∧
    ((s.eraseTimer e).printAllTime).consoleOut
      = s.consoleOut ++ [""]
        ++ (s.timer.erase e).map (fun p => padLeft 24 p.1 ++ padLeft 13 (formatFixed4 p.2))
        ++ [sepLine, padLeft 24 "TOTAL"
              ++ padLeft 13 (formatFixed4 (((s.timer.erase e).map Prod.snd).sum))] := by
  refine ⟨Event.find?_erase_self s.timer e, Event.not_mem_keys_erase s.timer e,
    fun k hk => Event.find?_erase_ne s.timer e k hk, rfl, rfl, rfl, rfl, rfl, rfl, ?_⟩
  simp [Logger.printAllTime, Logger.eraseTimer, Event.foldl_add_snd]

/-- A state tracking `"A"` and `"B"` in `timer` and `"A"` in the other maps. -/
def eraseState : Logger := { Logger.init with
  timer := [("A", (1 : ℚ)), ("B", (2 : ℚ))],
  timeStep := [("A", (3 : ℚ))],
  memory := [("A", (4 : ℚ))] }

/-- Witness for C5: erasing `"A"` at `eraseState` removes the `timer` entry
while the other key and the other maps survive. -/
theorem eraseTimer_frame_witness :
    (eraseState.eraseTimer "A").timer.find? "A" = none ∧
    (eraseState.eraseTimer "A").timer.find? "B"
      = Event.find? [("A", (1 : ℚ)), ("B", (2 : ℚ))] "B" ∧
    (eraseState.eraseTimer "A").memory = [("A", (4 : ℚ))] :=
  ⟨(eraseTimer_frame eraseState "A").1,
    (eraseTimer_frame eraseState "A").2.2.1 "B" (by decide),
    (eraseTimer_frame eraseState "A").2.2.2.2.2.1⟩

/-- Claim C6: `resetTimer()` zeroes every `totalElapsed` value while keeping
the key set, so a following `printAllTime()` prints a zero row for every
previously tracked key and a zero `TOTAL` row. -/
theorem resetTimer_zeroes (s : Logger) :
    (s.resetTimer).timer.keys = s.timer.keys ∧
    (∀ p, p ∈ (s.resetTimer).timer → p.2 = 0) ∧
    ((s.resetTimer).printAllTime).consoleOut
      = s.consoleOut ++ [""]
        ++ s.timer.map (fun p => padLeft 24 p.1 ++ padLeft 13 (formatFixed4 0))
        ++ [sepLine, padLeft 24 "TOTAL" ++ padLeft 13 (formatFixed4 0)] := by
  refine ⟨Event.keys_map_zero s.timer, ?_, ?_⟩
  · intro p hp
    obtain ⟨q, hq, rfl⟩ := List.mem_map.1 hp
    rfl
  · rw [Logger.printAllTime_consoleOut]
    simp only [Logger.resetTimer]
    rw [List.map_map, List.map_map, Event.sum_snd_zero]
    rfl

/-- Witness for C6 at a state tracking `"A"`: the value is zeroed. -/
theorem resetTimer_zeroes_witness :
    ({ Logger.init with timer := [("A", (7 : ℚ))] }.resetTimer).timer.keys
      = Event.keys [("A", (7 : ℚ))] ∧
    ("A", (0 : ℚ)).2 = 0 :=
  ⟨(resetTimer_zeroes _).1,
    (resetTimer_zeroes { Logger.init with timer := [("A", (7 : ℚ))] }).2.1 ("A", 0)
      (by simp [Logger.resetTimer])⟩

/-- Claim C7: `allocMemory(e, a)` then `freeMemory(e, b)` from an absent or
zero entry yields `memoryUsage[e] = a - b`, which is negative whenever the
freed total exceeds the allocated total (no underflow protection). -/
theorem allocFree_memory (s : Logger) (e : String) (a b : ℚ)
    (h : s.memory.find? e = none ∨ s.memory.find? e = some 0) :
    ((s.allocMemory e a).freeMemory e b).memory.find? e = some (a - b) ∧
    (a < b → ((((s.allocMemory e a).freeMemory e b).memory.find? e).getD 0) < 0) := by
  have h0 : (s.memory.find? e).getD 0 = 0 := by
    cases h with
    | inl h => rw [h]; rfl
    | inr h => rw [h]; rfl
  have h1 : ((s.allocMemory e a).freeMemory e b).memory.find? e = some (a - b) := by
    show ((s.memory.addTo e a).subFrom e b).find? e = _
    rw [Event.subFrom_find?_self, Event.addTo_find?_self, h0]
    simp
  refine ⟨h1, fun hab => ?_⟩
  rw [h1]
  simpa using sub_neg.mpr hab

/-- Witness for C7: `alloc 100` then `free 40` gives `60`; `alloc 10` then
`free 40` gives a negative balance. -/
theorem allocFree_memory_witness :
    ((Logger.init.allocMemory "mem" 100).freeMemory "mem" 40).memory.find? "mem"
      = some 60 ∧
    ((((Logger.init.allocMemory "mem" 10).freeMemory "mem" 40).memory.find? "mem").getD 0) < 0 := by
  have h1 := (allocFree_memory Logger.init "mem" 100 40 (Or.inl rfl)).1
  have h2 := (allocFree_memory Logger.init "mem" 10 40 (Or.inl rfl)).2 (by norm_num)
  refine ⟨?_, h2⟩
  rw [h1]
  norm_num

/-- Claim C8: `printAllTime()` prints one row per `totalElapsed` key
(24-character key column, 13-character value column at 4 decimal places) and a
`TOTAL` row whose value is the sum of all `totalElapsed` values. -/
theorem printAllTime_format (s : Logger) :
    (s.printAllTime).consoleOut
      = s.consoleOut ++ [""]
        ++ s.timer.map (fun p => padLeft 24 p.1 ++ padLeft 13 (formatFixed4 p.2))
        ++ [sepLine, padLeft 24 "TOTAL"
              ++ padLeft 13 (formatFixed4 ((s.timer.map Prod.snd).sum))] :=
  Logger.printAllTime_consoleOut s

/-- Claim C9: `printTime(e)` (resp. `printMemory(e)`) on an absent key is not
read-only: the `operator[]` lookup inserts `e` with value `0` into
`totalElapsed` (resp. `memoryUsage`), growing the map. -/
theorem printQuery_inserts (s : Logger) (e : String)
    (ht : s.timer.find? e = none) (hm : s.memory.find? e = none) :
    (s.printTime e).timer.find? e = some 0 ∧
    (s.printTime e).timer.length = s.timer.length + 1 ∧
    (s.printMemory e).memory.find? e = some 0 ∧
    (s.printMemory e).memory.length = s.memory.length + 1 := by
  have h1 : s.timer.access e = (0, s.timer.insert e 0) := by
    unfold Event.access
    rw [ht]
  have h2 : s.memory.access e = (0, s.memory.insert e 0) := by
    unfold Event.access
    rw [hm]
  refine ⟨?_, ?_, ?_, ?_⟩
  · show (s.timer.access e).2.find? e = some 0
    rw [h1]
    exact Event.find?_insert_self s.timer e 0
  · show (s.timer.access e).2.length = s.timer.length + 1
    rw [h1]
    exact Event.length_insert_of_absent s.timer e 0 ht
  · show (s.memory.access e).2.find? e = some 0
    rw [h2]
    exact Event.find?_insert_self s.memory e 0
  · show (s.memory.access e).2.length = s.memory.length + 1
    rw [h2]
    exact Event.length_insert_of_absent s.memory e 0 hm

/-- Witness for C9 at the freshly constructed state: both maps go from empty
to one entry on a mere print query. -/
theorem printQuery_inserts_witness :
    Logger.init.timer.find? "q" = none ∧
    Logger.init.memory.find? "q" = none ∧
    (Logger.init.printTime "q").timer.find? "q" = some 0 ∧
    (Logger.init.printTime "q").timer.length = Logger.init.timer.length + 1 ∧
    (Logger.init.printMemory "q").memory.find? "q" = some 0 ∧
    (Logger.init.printMemory "q").memory.length = Logger.init.memory.length + 1 :=
  ⟨rfl, rfl, (printQuery_inserts Logger.init "q" rfl rfl).1,
    (printQuery_inserts Logger.init "q" rfl rfl).2.1,
    (printQuery_inserts Logger.init "q" rfl rfl).2.2.1,
    (printQuery_inserts Logger.init "q" rfl rfl).2.2.2⟩

/-- Claim C10: the `printNow` flag (set to `false` by the constructor and read
by no method) has no effect: runs of any operation sequence from states that
differ only in `printNow` agree on all four maps, all three file sinks and the
console. -/
theorem printNow_no_effect (s : Logger) (b1 b2 : Bool) (ops : List Op) :
    (Logger.run { s with printNow := b1 } ops).observe
      = (Logger.run { s with printNow := b2 } ops).observe ∧
    Logger.init.printNow = false := by
  constructor
  · have h1 := Logger.run_printNow s b1 ops
    have h2 := Logger.run_printNow s b2 ops
    rw [h1, h2]
    rfl
  · rfl
